import Mathlib

/-!
Verification development for the pesapal-mini-db record store.

The core under `src/` consists of `parser.py` (class `SQLParser`),
`table.py` (class `Table`) and `database.py` (class `Database`).  This file
gives a shallow embedding of those components: Python/JSON values become an
inductive `Value` (floats are modelled as exact rationals; IEEE inf/nan
tokens are not modelled), Python dicts become association lists with
Python insertion-order update semantics, exceptions become `Except` values,
and the on-disk row log becomes an explicit list of rows threaded through
each operation exactly where the Python code reads or rewrites the file.

The repository also contains a second, denser table engine with primary-key
indexing that is referenced by `test_primary_key.py`, `test_validation.py`
and `app/app.py` but whose module is absent from the sources; the part of it
needed here is modelled from the specification in a separate namespace.
-/

namespace MiniDb

/-- Python/JSON values flowing through the database.  Floats are modelled as
exact rationals (no float arithmetic occurs in the code, only comparisons of
parsed literals). -/
inductive Value where
  | null
  | bool (b : Bool)
  | int (n : Int)
  | float (q : ℚ)
  | str (s : String)
deriving DecidableEq, Repr

/-- A single-quote character, used when rendering Python error messages. -/
def sq : String := String.singleton (Char.ofNat 39)

/-- Python `str.strip()` whitespace set (`\t\n\v\f\r` and space). -/
def isPySpace (c : Char) : Bool :=
  c = ' ' ∨ c = '\t' ∨ c = '\n' ∨ c = '\r' ∨ c = '\x0b' ∨ c = '\x0c'

/-- Python `str.strip()`. -/
def pyStrip (s : String) : String :=
  String.mk (((s.data.dropWhile isPySpace).reverse.dropWhile isPySpace).reverse)

/-- Python `str.upper()` (ASCII). -/
def pyUpper (s : String) : String :=
  String.mk (s.data.map Char.toUpper)

/-- Python `str.lower()` (ASCII). -/
def pyLower (s : String) : String :=
  String.mk (s.data.map Char.toLower)

/-- Python `s.split(",")` body: accumulate the current (reversed) piece. -/
def splitCommaAux : List Char → List Char → List String
  | [], cur => [String.mk cur.reverse]
  | c :: cs, cur =>
    if c = ',' then String.mk cur.reverse :: splitCommaAux cs []
    else splitCommaAux cs (c :: cur)

/-- Python `s.split(",")` (an empty string yields one empty piece). -/
def splitComma (s : String) : List String :=
  splitCommaAux s.data []

/-- Decimal digit run with single underscores allowed between digits
(Python numeric literal body).  Consumes the maximal valid run and returns
the accumulated value, the number of digits seen and the unconsumed rest.
An underscore not directly between two digits is left unconsumed. -/
def digitRunTake : List Char → Nat → Nat → Nat × Nat × List Char
  | [], acc, k => (acc, k, [])
  | c :: cs, acc, k =>
    if c.isDigit then digitRunTake cs (acc * 10 + (c.toNat - 48)) (k + 1)
    else if c = '_' then
      match cs with
      | c2 :: cs2 =>
        if c2.isDigit then digitRunTake cs2 (acc * 10 + (c2.toNat - 48)) (k + 2)
        else (acc, k, c :: cs)
      | [] => (acc, k, [c])
    else (acc, k, c :: cs)

/-- Python `int(s)` on a string: optional surrounding whitespace, an optional
sign, then decimal digits with single underscores between digits. -/
def pyIntOfString (s : String) : Option Int :=
  let cs := ((s.data.dropWhile isPySpace).reverse.dropWhile isPySpace).reverse
  let signBody : Int × List Char :=
    match cs with
    | '+' :: r => (1, r)
    | '-' :: r => (-1, r)
    | r => (1, r)
  match signBody.2 with
  | c :: _ =>
    if c.isDigit then
      match digitRunTake signBody.2 0 0 with
      | (v, _, []) => some (signBody.1 * (v : Int))
      | _ => none
    else none
  | [] => none

/-- `10 ^ e` over the rationals for an integer exponent. -/
def qpow10 (e : Int) : ℚ :=
  if 0 ≤ e then (10 : ℚ) ^ e.toNat else ((10 : ℚ) ^ (-e).toNat)⁻¹

/-- Python `float(s)` on a string (finite decimal forms: optional sign,
integer part and/or fraction, optional exponent, underscores between digits;
the IEEE `inf`/`nan` spellings are not modelled). -/
def pyFloatOfString (s : String) : Option ℚ :=
  let cs := ((s.data.dropWhile isPySpace).reverse.dropWhile isPySpace).reverse
  let signBody : ℚ × List Char :=
    match cs with
    | '+' :: r => (1, r)
    | '-' :: r => (-1, r)
    | r => (1, r)
  let body := signBody.2
  let ipart : Nat × Nat × List Char :=
    match body with
    | c :: _ => if c.isDigit then digitRunTake body 0 0 else (0, 0, body)
    | [] => (0, 0, body)
  let fpart : Nat × Nat × List Char :=
    match ipart.2.2 with
    | '.' :: r2 =>
      match r2 with
      | c :: _ => if c.isDigit then digitRunTake r2 0 0 else (0, 0, r2)
      | [] => (0, 0, r2)
    | r2 => (0, 0, r2)
  let sawDot : Bool := match ipart.2.2 with | '.' :: _ => true | _ => false
  if ipart.2.1 + fpart.2.1 = 0 then none
  else
    let mant : ℚ := signBody.1 * ((ipart.1 : ℚ) + (fpart.1 : ℚ) / qpow10 (fpart.2.1 : Int))
    let afterMant := if sawDot then fpart.2.2 else ipart.2.2
    match afterMant with
    | [] => some mant
    | c :: r3 =>
      if c = 'e' ∨ c = 'E' then
        let esign : Int × List Char :=
          match r3 with
          | '+' :: r4 => (1, r4)
          | '-' :: r4 => (-1, r4)
          | r4 => (1, r4)
        match esign.2 with
        | c2 :: _ =>
          if c2.isDigit then
            match digitRunTake esign.2 0 0 with
            | (ev, _, []) => some (mant * qpow10 (esign.1 * (ev : Int)))
            | _ => none
          else none
        | [] => none
      else none

/-- Python `str(value)` for the values in play (the float case approximates
CPython float repr by the rational rendering). -/
def pyStrOfValue : Value → String
  | .null => "None"
  | .bool true => "True"
  | .bool false => "False"
  | .int n => toString n
  | .float q => toString q
  | .str s => s

/-- Python type names, for TypeError messages. -/
def pyTypeName : Value → String
  | .null => "NoneType"
  | .bool _ => "bool"
  | .int _ => "int"
  | .float _ => "float"
  | .str _ => "str"

/-- Python `int(x)` truncation of a float toward zero. -/
def pyTrunc (q : ℚ) : Int :=
  if 0 ≤ q then q.floor else q.ceil

/-- Numeric view: Python treats bool, int and float as one numeric tower
for `==` and ordering (`True == 1`, `1 == 1.0`). -/
def numQ : Value → Option ℚ
  | .bool b => some (if b then 1 else 0)
  | .int n => some (n : ℚ)
  | .float q => some q
  | _ => none

/-- Python `==` on the values in play: numbers compare numerically, strings
by content, `None` only equals `None`, everything else is unequal. -/
def pyEqB (a b : Value) : Bool :=
  match numQ a, numQ b with
  | some x, some y => decide (x = y)
  | _, _ =>
    match a, b with
    | .str x, .str y => decide (x = y)
    | .null, .null => true
    | _, _ => false

/-- The errors the Python code can raise (each carries the data interpolated
into its message). -/
inductive PyErr where
  | emptySql
  | invalidSql (sql : String)
  | invalidColDef (d : String)
  | unsupportedColType (t : String)
  | invalidSetClause (a : String)
  | invalidWhereClause (w : String)
  | valueCountMismatch (expected got : Nat)
  | cannotConvert (v t inner : String)
  | noSuchColumn (c : String)
  | noSuchUpdateColumn (c : String)
  | unsupportedOperator (op : String)
  | typeErrorCmp (op lty rty : String)
deriving DecidableEq, Repr

/-- The human-readable message carried by each error (mirrors the Python
f-strings). -/
def errMsg : PyErr → String
  | .emptySql => "Empty SQL statement"
  | .invalidSql s => "Invalid SQL statement: " ++ s
  | .invalidColDef d => "Invalid column definition: " ++ d
  | .unsupportedColType t => "Unsupported column type: " ++ t
  | .invalidSetClause a => "Invalid SET clause: " ++ a
  | .invalidWhereClause w => "Invalid WHERE clause: " ++ w
  | .valueCountMismatch e g => "Expected " ++ toString e ++ " values, got " ++ toString g
  | .cannotConvert v t inner =>
      "Cannot convert " ++ sq ++ v ++ sq ++ " to " ++ t ++ ": " ++ inner
  | .noSuchColumn c => "Column " ++ sq ++ c ++ sq ++ " does not exist in table"
  | .noSuchUpdateColumn c => "Column " ++ sq ++ c ++ sq ++ " does not exist"
  | .unsupportedOperator op => "Unsupported operator: " ++ op
  | .typeErrorCmp op l r =>
      sq ++ op ++ sq ++ " not supported between instances of " ++
        sq ++ l ++ sq ++ " and " ++ sq ++ r ++ sq

/-- Python `>` (strict comparison raises TypeError on non-number,
non-string-to-string operands). -/
def pyGt (a b : Value) : Except PyErr Bool :=
  match numQ a, numQ b with
  | some x, some y => .ok (decide (y < x))
  | _, _ =>
    match a, b with
    | .str x, .str y => .ok (decide (y < x))
    | _, _ => .error (.typeErrorCmp ">" (pyTypeName a) (pyTypeName b))

/-- Python `<`. -/
def pyLt (a b : Value) : Except PyErr Bool :=
  match numQ a, numQ b with
  | some x, some y => .ok (decide (x < y))
  | _, _ =>
    match a, b with
    | .str x, .str y => .ok (decide (x < y))
    | _, _ => .error (.typeErrorCmp "<" (pyTypeName a) (pyTypeName b))

/-- Python `>=`. -/
def pyGe (a b : Value) : Except PyErr Bool :=
  match numQ a, numQ b with
  | some x, some y => .ok (decide (y ≤ x))
  | _, _ =>
    match a, b with
    | .str x, .str y => .ok (decide (y ≤ x))
    | _, _ => .error (.typeErrorCmp ">=" (pyTypeName a) (pyTypeName b))

/-- Python `<=`. -/
def pyLe (a b : Value) : Except PyErr Bool :=
  match numQ a, numQ b with
  | some x, some y => .ok (decide (x ≤ y))
  | _, _ =>
    match a, b with
    | .str x, .str y => .ok (decide (x ≤ y))
    | _, _ => .error (.typeErrorCmp "<=" (pyTypeName a) (pyTypeName b))

/-- Embeds `Table._validate_type`: validate and convert a value to the
declared column type; `None` passes through unconverted.  Any failure is
wrapped into the `Cannot convert ... :` message exactly as the Python
`except (ValueError, TypeError)` handler does. -/
def validateType (v : Value) (expectedType : String) : Except PyErr Value :=
  match v with
  | .null => .ok .null
  | _ =>
    if expectedType = "TEXT" then .ok (.str (pyStrOfValue v))
    else if expectedType = "INTEGER" then
      match v with
      | .bool b => .ok (.int (if b then 1 else 0))
      | .int n => .ok (.int n)
      | .float q => .ok (.int (pyTrunc q))
      | .str s =>
        match pyIntOfString s with
        | some n => .ok (.int n)
        | none => .error (.cannotConvert (pyStrOfValue v) expectedType
            ("invalid literal for int() with base 10: " ++ sq ++ s ++ sq))
      | .null => .ok .null
    else if expectedType = "FLOAT" then
      match v with
      | .bool b => .ok (.float (if b then 1 else 0))
      | .int n => .ok (.float (n : ℚ))
      | .float q => .ok (.float q)
      | .str s =>
        match pyFloatOfString s with
        | some q => .ok (.float q)
        | none => .error (.cannotConvert (pyStrOfValue v) expectedType
            ("could not convert string to float: " ++ sq ++ s ++ sq))
      | .null => .ok .null
    else if expectedType = "BOOLEAN" then
      match v with
      | .bool b => .ok (.bool b)
      | .str s =>
        if pyUpper s = "TRUE" then .ok (.bool true)
        else if pyUpper s = "FALSE" then .ok (.bool false)
        else .error (.cannotConvert (pyStrOfValue v) expectedType
            ("Cannot convert " ++ sq ++ pyStrOfValue v ++ sq ++ " to BOOLEAN"))
      | _ => .error (.cannotConvert (pyStrOfValue v) expectedType
          ("Cannot convert " ++ sq ++ pyStrOfValue v ++ sq ++ " to BOOLEAN"))
    else .error (.cannotConvert (pyStrOfValue v) expectedType
        ("Unsupported type: " ++ expectedType))

/-- Association-list lookup with the semantics of Python dict access
(`d[k]` / `k in d`): find the first (only, for genuine dicts) binding. -/
def alistGet {α : Type} : List (String × α) → String → Option α
  | [], _ => none
  | (c2, v) :: r, c => if c2 = c then some v else alistGet r c

/-- Association-list store with the semantics of Python `d[k] = v`: an
existing key keeps its position, a new key is appended. -/
def alistUpd {α : Type} : List (String × α) → String → α → List (String × α)
  | [], c, v => [(c, v)]
  | (c2, v2) :: r, c, v =>
    if c2 = c then (c2, v) :: r else (c2, v2) :: alistUpd r c v

/-- A row: a Python dict from column name to value. -/
abbrev Row := List (String × Value)

/-- A schema: the Python dict from column name to declared type. -/
abbrev Schema := List (String × String)

/-- A parsed WHERE clause (`{'column': ..., 'operator': ..., 'value': ...}`). -/
structure WhereClause where
  column : String
  op : String
  value : Value
deriving DecidableEq, Repr

/-- Embeds `Table._evaluate_where`: absent column fails the comparison;
a `None` on either side only supports `=` and `!=`; otherwise the Python
comparison operators run (and may raise). -/
def evalWhere (row : Row) (w : WhereClause) : Except PyErr Bool :=
  match alistGet row w.column with
  | none => .ok false
  | some rv =>
    if rv = .null ∨ w.value = .null then
      if w.op = "=" then .ok (pyEqB rv w.value)
      else if w.op = "!=" then .ok (!pyEqB rv w.value)
      else .ok false
    else
      if w.op = "=" then .ok (pyEqB rv w.value)
      else if w.op = "!=" then .ok (!pyEqB rv w.value)
      else if w.op = ">" then pyGt rv w.value
      else if w.op = "<" then pyLt rv w.value
      else if w.op = ">=" then pyGe rv w.value
      else if w.op = "<=" then pyLe rv w.value
      else .error (.unsupportedOperator w.op)

/-- The row-building loop of `Table.insert`: `row[col] = validated` over the
schema columns zipped with the supplied values. -/
def buildRowAux (acc : Row) : List ((String × String) × Value) → Except PyErr Row
  | [] => .ok acc
  | ((c, t), v) :: rest =>
    match validateType v t with
    | .error e => .error e
    | .ok v2 => buildRowAux (alistUpd acc c v2) rest

/-- Embeds `Table.insert`: positional values are validated against the schema
in declared order, then the row is appended to the log.  The first component
is the row log after the call (unchanged when the insert raises, since the
file append happens after validation). -/
def tableInsert (schema : Schema) (rows : List Row) (values : List Value) :
    List Row × Except PyErr Row :=
  if values.length = schema.length then
    match buildRowAux [] (schema.zip values) with
    | .error e => (rows, .error e)
    | .ok row => (rows ++ [row], .ok row)
  else (rows, .error (.valueCountMismatch schema.length values.length))

/-- The projection `{col: row.get(col) for col in columns}` (a Python dict
comprehension, so duplicate columns collapse onto one entry). -/
def projectRow (cols : List String) (row : Row) : Row :=
  cols.foldl (fun acc c => alistUpd acc c ((alistGet row c).getD .null)) []

/-- The column-validation loop of `Table.select`: first requested column not
in the schema, if any. -/
def checkCols (schema : Schema) : List String → Option String
  | [] => none
  | c :: cs => if (alistGet schema c).isSome then checkCols schema cs else some c

/-- The row scan of `Table.select`: filter by the WHERE clause (an evaluation
error aborts the whole scan) and project survivors. -/
def selectLoop (cols : List String) (wc : Option WhereClause) :
    List Row → Except PyErr (List Row)
  | [] => .ok []
  | r :: rs =>
    match wc with
    | some w =>
      match evalWhere r w with
      | .error e => .error e
      | .ok true => (selectLoop cols wc rs).map (fun out => projectRow cols r :: out)
      | .ok false => selectLoop cols wc rs
    | none => (selectLoop cols wc rs).map (fun out => projectRow cols r :: out)

/-- The requested-columns resolution of `Table.select`: `None` or `['*']`
mean all schema columns. -/
def selCols (schema : Schema) (columns : Option (List String)) : List String :=
  match columns with
  | none => schema.map Prod.fst
  | some cs => if cs = ["*"] then schema.map Prod.fst else cs

/-- Embeds `Table.select`: `None` or `['*']` projects to the full schema;
requested columns are validated against the schema before the log is read. -/
def tableSelect (schema : Schema) (rows : List Row) (columns : Option (List String))
    (wc : Option WhereClause) : Except PyErr (List Row) :=
  let cols := selCols schema columns
  match checkCols schema cols with
  | some c => .error (.noSuchColumn c)
  | none => selectLoop cols wc rows

/-- The SET-clause validation loop of `Table.update`: each column must exist
in the schema and each value must coerce to its declared type. -/
def validateUpdates (schema : Schema) : List (String × Value) → Except PyErr (List (String × Value))
  | [] => .ok []
  | (c, v) :: rest =>
    match alistGet schema c with
    | none => .error (.noSuchUpdateColumn c)
    | some t =>
      match validateType v t with
      | .error e => .error e
      | .ok v2 => (validateUpdates schema rest).map (fun tail => (c, v2) :: tail)

/-- Python `row.update(updates)`. -/
def applyUpdates (row : Row) (upds : List (String × Value)) : Row :=
  upds.foldl (fun acc p => alistUpd acc p.1 p.2) row

/-- Whether a row matches an optional WHERE clause (`where is None` matches
everything), as used by `Table.update` and `Table.delete`. -/
def rowMatches (wc : Option WhereClause) (r : Row) : Except PyErr Bool :=
  match wc with
  | none => .ok true
  | some w => evalWhere r w

/-- The scan of `Table.update`: matched rows are mutated in place and
counted, all rows are collected for the rewrite. -/
def updateLoop (upds : List (String × Value)) (wc : Option WhereClause) :
    List Row → Except PyErr (List Row × Nat)
  | [] => .ok ([], 0)
  | r :: rs =>
    match rowMatches wc r with
    | .error e => .error e
    | .ok true =>
      (updateLoop upds wc rs).map (fun p => (applyUpdates r upds :: p.1, p.2 + 1))
    | .ok false =>
      (updateLoop upds wc rs).map (fun p => (r :: p.1, p.2))

/-- Embeds `Table.update`: SET values are validated first, then the log is
scanned and rewritten.  The first component is the row log after the call
(the file is only rewritten after a fully successful scan). -/
def tableUpdate (schema : Schema) (rows : List Row) (upds : List (String × Value))
    (wc : Option WhereClause) : List Row × Except PyErr Nat :=
  match validateUpdates schema upds with
  | .error e => (rows, .error e)
  | .ok upds2 =>
    match updateLoop upds2 wc rows with
    | .error e => (rows, .error e)
    | .ok p => (p.1, .ok p.2)

/-- The scan of `Table.delete`: matched rows are counted and dropped,
survivors are collected for the rewrite. -/
def deleteLoop (wc : Option WhereClause) : List Row → Except PyErr (List Row × Nat)
  | [] => .ok ([], 0)
  | r :: rs =>
    match rowMatches wc r with
    | .error e => .error e
    | .ok true => (deleteLoop wc rs).map (fun p => (p.1, p.2 + 1))
    | .ok false => (deleteLoop wc rs).map (fun p => (r :: p.1, p.2))

/-- Embeds `Table.delete`.  The first component is the row log after the
call (unchanged when the scan raises, since the rewrite happens after). -/
def tableDelete (rows : List Row) (wc : Option WhereClause) :
    List Row × Except PyErr Nat :=
  match deleteLoop wc rows with
  | .error e => (rows, .error e)
  | .ok p => (p.1, .ok p.2)

/-- The quoted-token test of `SQLParser._parse_value`: fully wrapped in
single or double quotes (a lone quote character passes too, exactly as the
Python `startswith`/`endswith` pair does). -/
def isQuotedTok (v : String) : Bool :=
  let first := v.data.head?
  let last := v.data.getLast?
  (first = some (Char.ofNat 39) ∧ last = some (Char.ofNat 39)) ∨
    (first = some (Char.ofNat 34) ∧ last = some (Char.ofNat 34))

/-- Python `value[1:-1]`. -/
def stripOuter (v : String) : String :=
  String.mk ((v.data.drop 1).dropLast)

/-- Embeds `SQLParser._parse_value`: the total literal lexer.  NULL, TRUE and
FALSE are case-insensitive; quoted tokens become strings; a token containing
a dot is tried only as a float, anything else only as an integer; a failed
numeric parse falls back to the bare token. -/
def parseValueTok (value : String) : Value :=
  let v := pyStrip value
  if pyUpper v = "NULL" then .null
  else if pyUpper v = "TRUE" then .bool true
  else if pyUpper v = "FALSE" then .bool false
  else if isQuotedTok v then .str (stripOuter v)
  else if v.data.contains '.' then
    match pyFloatOfString v with
    | some q => .float q
    | none => .str v
  else
    match pyIntOfString v with
    | some n => .int n
    | none => .str v

/-- Python `s.split(sep, 1)` when `sep` occurs in `s`: the text before and
after the first occurrence. -/
def splitOnceAux (sep : List Char) (acc : List Char) :
    List Char → Option (List Char × List Char)
  | [] => none
  | c :: cs =>
    if sep.isPrefixOf (c :: cs) then some (acc.reverse, (c :: cs).drop sep.length)
    else splitOnceAux sep (c :: acc) cs

/-- `splitOnceAux` on strings; `none` exactly when `sep` does not occur. -/
def splitOnceStr (s sep : String) : Option (String × String) :=
  (splitOnceAux sep.data [] s.data).map (fun p => (String.mk p.1, String.mk p.2))

/-- The operator loop of `SQLParser._parse_where`: the first operator from
`!=, >=, <=, =, >, <` occurring anywhere in the clause splits it. -/
def tryWhereOps : List String → String → Except PyErr WhereClause
  | [], wc => .error (.invalidWhereClause wc)
  | op :: ops, wc =>
    match splitOnceStr wc op with
    | some p => .ok ⟨pyStrip p.1, op, parseValueTok (pyStrip p.2)⟩
    | none => tryWhereOps ops wc

/-- Embeds `SQLParser._parse_where`. -/
def parseWhereClause (whereStr : String) : Except PyErr WhereClause :=
  tryWhereOps ["!=", ">=", "<=", "=", ">", "<"] (pyStrip whereStr)

/-- Python `s.split()` body: split on whitespace runs, discarding empties. -/
def splitWsAux : List Char → List Char → List String
  | [], cur => if cur = [] then [] else [String.mk cur.reverse]
  | c :: cs, cur =>
    if isPySpace c then
      if cur = [] then splitWsAux cs [] else String.mk cur.reverse :: splitWsAux cs []
    else splitWsAux cs (c :: cur)

/-- Python `s.split()`: split on whitespace runs, discarding empties. -/
def pySplitWs (s : String) : List String :=
  splitWsAux s.data []

/-- The column types accepted by `SQLParser._parse_create`. -/
def allowedTypes : List String := ["TEXT", "INTEGER", "FLOAT", "BOOLEAN"]

/-- The column-definition loop of `SQLParser._parse_create`: each non-empty
comma-separated part must split into at least a name and a type token, and
the uppercased type must be in the fixed list. -/
def parseColDefs (acc : Schema) : List String → Except PyErr Schema
  | [] => .ok acc
  | d :: ds =>
    let cd := pyStrip d
    if cd = "" then parseColDefs acc ds
    else
      match pySplitWs cd with
      | c :: t :: _ =>
        let ty := pyUpper t
        if allowedTypes.contains ty then parseColDefs (alistUpd acc c ty) ds
        else .error (.unsupportedColType ty)
      | _ => .error (.invalidColDef cd)

/-- A parsed command (the dicts returned by the `_parse_*` methods). -/
inductive Command where
  | createC (table : String) (columns : Schema)
  | dropC (table : String)
  | insertC (table : String) (values : List Value)
  | selectC (table : String) (columns : List String) (wc : Option WhereClause)
  | updateC (table : String) (updates : List (String × Value)) (wc : Option WhereClause)
  | deleteC (table : String) (wc : Option WhereClause)
deriving DecidableEq, Repr

/-- Embeds `SQLParser._parse_create` given the two regex groups. -/
def parseCreateCmd (table : String) (columnsStr : String) : Except PyErr Command :=
  match parseColDefs [] (splitComma columnsStr) with
  | .error e => .error e
  | .ok cols => .ok (.createC table cols)

/-- Embeds `SQLParser._parse_insert` given the two regex groups. -/
def parseInsertCmd (table : String) (valuesStr : String) : Command :=
  .insertC table ((splitComma valuesStr).map (fun v => parseValueTok (pyStrip v)))

/-- Embeds `SQLParser._parse_select` given the three regex groups.  An empty
captured WHERE group is falsy in Python and so is treated as absent. -/
def parseSelectCmd (columnsStr : String) (table : String) (whereGrp : Option String) :
    Except PyErr Command :=
  let cstr := pyStrip columnsStr
  let cols := if cstr = "*" then ["*"] else (splitComma cstr).map pyStrip
  match whereGrp with
  | some w =>
    if w = "" then .ok (.selectC table cols none)
    else
      match parseWhereClause w with
      | .error e => .error e
      | .ok wc => .ok (.selectC table cols (some wc))
  | none => .ok (.selectC table cols none)

/-- The SET-assignment loop of `SQLParser._parse_update` (`updates[col] =
value` over the comma-split assignments). -/
def parseSetAux (acc : List (String × Value)) : List String → Except PyErr (List (String × Value))
  | [] => .ok acc
  | a :: rest =>
    let asg := pyStrip a
    match splitOnceStr asg "=" with
    | none => .error (.invalidSetClause asg)
    | some p => parseSetAux (alistUpd acc (pyStrip p.1) (parseValueTok (pyStrip p.2))) rest

/-- Embeds `SQLParser._parse_update` given the three regex groups. -/
def parseUpdateCmd (table : String) (setClause : String) (whereGrp : Option String) :
    Except PyErr Command :=
  match parseSetAux [] (splitComma setClause) with
  | .error e => .error e
  | .ok upds =>
    match whereGrp with
    | some w =>
      if w = "" then .ok (.updateC table upds none)
      else
        match parseWhereClause w with
        | .error e => .error e
        | .ok wc => .ok (.updateC table upds (some wc))
    | none => .ok (.updateC table upds none)

/-- Embeds `SQLParser._parse_delete` given the two regex groups. -/
def parseDeleteCmd (table : String) (whereGrp : Option String) : Except PyErr Command :=
  match whereGrp with
  | some w =>
    if w = "" then .ok (.deleteC table none)
    else
      match parseWhereClause w with
      | .error e => .error e
      | .ok wc => .ok (.deleteC table (some wc))
  | none => .ok (.deleteC table none)

/-- Regex `\w` (modelled over ASCII alphanumerics and underscore). -/
def isWordChar (c : Char) : Bool :=
  c.isAlphanum ∨ c = '_'

/-- Case-insensitive literal keyword match (regex IGNORECASE); returns the
rest of the input on success. -/
def ciPrefix : List Char → List Char → Option (List Char)
  | [], s => some s
  | k :: ks, c :: cs => if c.toLower = k.toLower then ciPrefix ks cs else none
  | _ :: _, [] => none

/-- Regex `\s+` (greedy, at least one). -/
def ws1 (s : List Char) : Option (List Char) :=
  match s with
  | c :: cs => if isPySpace c then some (cs.dropWhile isPySpace) else none
  | [] => none

/-- Regex `(\w+)` (greedy, at least one). -/
def word1 (s : List Char) : Option (String × List Char) :=
  match s with
  | c :: cs =>
    if isWordChar c then some (String.mk (c :: cs.takeWhile isWordChar), cs.dropWhile isWordChar)
    else none
  | [] => none

/-- Lazy `(.*?)` up to the first occurrence of a closing character: the text
before it and the rest after it; `none` when the character never occurs
(then the whole pattern fails to match). -/
def splitFirst (ch : Char) : List Char → Option (List Char × List Char)
  | [] => none
  | c :: cs =>
    if c = ch then some ([], cs)
    else (splitFirst ch cs).map (fun p => (c :: p.1, p.2))

/-- The optional tail `(?:\s+WHERE\s+(.*))?` shared by the SELECT, UPDATE and
DELETE patterns: the captured group, or `none` when the group does not match
(the greedy `(.*)` under DOTALL captures the entire rest). -/
def optWhereTail (s : List Char) : Option String := do
  let r1 ← ws1 s
  let r2 ← ciPrefix "WHERE".data r1
  let r3 ← ws1 r2
  pure (String.mk r3)

/-- Regex `CREATE\s+TABLE\s+(\w+)\s*\((.*?)\)` under `re.match`: the table
name and the parenthesized body. -/
def matchCreate (s : List Char) : Option (String × String) := do
  let r1 ← ciPrefix "CREATE".data s
  let r2 ← ws1 r1
  let r3 ← ciPrefix "TABLE".data r2
  let r4 ← ws1 r3
  let (nm, r5) ← word1 r4
  match r5.dropWhile isPySpace with
  | '(' :: r6 =>
    let (body, _) ← splitFirst ')' r6
    pure (nm, String.mk body)
  | _ => none

/-- Regex `INSERT\s+INTO\s+(\w+)\s+VALUES\s*\((.*?)\)` under `re.match`. -/
def matchInsert (s : List Char) : Option (String × String) := do
  let r1 ← ciPrefix "INSERT".data s
  let r2 ← ws1 r1
  let r3 ← ciPrefix "INTO".data r2
  let r4 ← ws1 r3
  let (nm, r5) ← word1 r4
  let r6 ← ws1 r5
  let r7 ← ciPrefix "VALUES".data r6
  match r7.dropWhile isPySpace with
  | '(' :: r8 =>
    let (body, _) ← splitFirst ')' r8
    pure (nm, String.mk body)
  | _ => none

/-- The continuation `\s+FROM\s+(\w+)(?:\s+WHERE\s+(.*))?` of the SELECT
pattern, tried at one position. -/
def selectContAt (s : List Char) : Option (String × Option String) := do
  let r1 ← ws1 s
  let r2 ← ciPrefix "FROM".data r1
  let r3 ← ws1 r2
  let (tbl, r4) ← word1 r3
  pure (tbl, optWhereTail r4)

/-- Lazy scan for the earliest position where the SELECT continuation
matches; `acc` accumulates the reversed group-1 text (`(.*?)`). -/
def selectScan (acc : List Char) : List Char → Option (String × String × Option String)
  | [] => none
  | c :: cs =>
    match selectContAt (c :: cs) with
    | some p => some (String.mk acc.reverse, p.1, p.2)
    | none => selectScan (c :: acc) cs

/-- The backtracking over the greedy `\s+` after SELECT: the engine first
gives all the whitespace to `\s+` and only on total failure shortens it,
letting group 1 start inside the whitespace run. -/
def selectTryKs : Nat → List Char → Option (String × String × Option String)
  | 0, _ => none
  | k + 1, r =>
    match selectScan [] (r.drop (k + 1)) with
    | some p => some p
    | none => selectTryKs k r

/-- Regex `SELECT\s+(.*?)\s+FROM\s+(\w+)(?:\s+WHERE\s+(.*))?` under
`re.match`: columns text, table name, optional WHERE text. -/
def matchSelect (s : List Char) : Option (String × String × Option String) := do
  let r1 ← ciPrefix "SELECT".data s
  let m := (r1.takeWhile isPySpace).length
  if m = 0 then none else selectTryKs m r1

/-- Regex `UPDATE\s+(\w+)\s+SET\s+(.*?)(?:\s+WHERE\s+(.*))?` under
`re.match`.  Everything after `SET\s+` is optional and the group `(.*?)` is
lazy, so the regex always succeeds with an empty SET group and no WHERE
group as soon as the prefix through `SET\s+` matches. -/
def matchUpdate (s : List Char) : Option (String × String × Option String) := do
  let r1 ← ciPrefix "UPDATE".data s
  let r2 ← ws1 r1
  let (tbl, r3) ← word1 r2
  let r4 ← ws1 r3
  let r5 ← ciPrefix "SET".data r4
  let _ ← ws1 r5
  pure (tbl, "", none)

/-- Regex `DELETE\s+FROM\s+(\w+)(?:\s+WHERE\s+(.*))?` under `re.match`. -/
def matchDelete (s : List Char) : Option (String × Option String) := do
  let r1 ← ciPrefix "DELETE".data s
  let r2 ← ws1 r1
  let r3 ← ciPrefix "FROM".data r2
  let r4 ← ws1 r3
  let (tbl, r5) ← word1 r4
  pure (tbl, optWhereTail r5)

/-- Regex `DROP\s+TABLE\s+(\w+)` under `re.match`. -/
def matchDrop (s : List Char) : Option String := do
  let r1 ← ciPrefix "DROP".data s
  let r2 ← ws1 r1
  let r3 ← ciPrefix "TABLE".data r2
  let r4 ← ws1 r3
  let (nm, _) ← word1 r4
  pure nm

/-- Embeds `SQLParser.parse`: strip, reject empty input, then try the
patterns in their declaration order (create, insert, select, update,
delete, drop); no match is an invalid statement. -/
def parseSql (sqlRaw : String) : Except PyErr Command :=
  let sql := pyStrip sqlRaw
  if sql = "" then .error .emptySql
  else
    match matchCreate sql.data with
    | some p => parseCreateCmd p.1 p.2
    | none =>
      match matchInsert sql.data with
      | some p => .ok (parseInsertCmd p.1 p.2)
      | none =>
        match matchSelect sql.data with
        | some p => parseSelectCmd p.1 p.2.1 p.2.2
        | none =>
          match matchUpdate sql.data with
          | some p => parseUpdateCmd p.1 p.2.1 p.2.2
          | none =>
            match matchDelete sql.data with
            | some p => parseDeleteCmd p.1 p.2
            | none =>
              match matchDrop sql.data with
              | some t => .ok (.dropC t)
              | none => .error (.invalidSql sql)

/-- One table as persisted by the coordinator: its schema document and its
row log. -/
structure TableData where
  schema : Schema
  rows : List Row
deriving DecidableEq, Repr

/-- The persisted state the `Database` coordinator reads and writes: the
tables by name (metadata file plus data file each). -/
abbrev DbState := List (String × TableData)

/-- The result dict returned by `Database.execute` (absent dict keys are
`none`). -/
structure ExecResult where
  success : Bool
  error : Option String := none
  message : Option String := none
  table : Option String := none
  resultColumns : Option (List String) := none
  resultRows : Option (List Row) := none
  insertedRow : Option Row := none
  count : Option Nat := none
deriving DecidableEq, Repr

/-- The `{'success': False, 'error': ...}` failure shape. -/
def mkFail (e : String) : ExecResult := { success := false, error := some e }

/-- Embeds `Database.execute`: parse, dispatch on the command type, and
convert any exception raised below into the structured failure result. -/
def execute (st : DbState) (sql : String) : DbState × ExecResult :=
  match parseSql sql with
  | .error e => (st, mkFail (errMsg e))
  | .ok cmd =>
    match cmd with
    | .createC t cols =>
      match alistGet st t with
      | some _ => (st, mkFail ("Table " ++ sq ++ t ++ sq ++ " already exists"))
      | none =>
        (alistUpd st t ⟨cols, []⟩,
         { success := true,
           message := some ("Table " ++ sq ++ t ++ sq ++ " created successfully"),
           table := some t })
    | .dropC t =>
      match alistGet st t with
      | none => (st, mkFail ("Table " ++ sq ++ t ++ sq ++ " does not exist"))
      | some _ =>
        (st.filter (fun p => ¬ p.1 = t),
         { success := true,
           message := some ("Table " ++ sq ++ t ++ sq ++ " dropped successfully"),
           table := some t })
    | .insertC t values =>
      match alistGet st t with
      | none => (st, mkFail ("Table " ++ sq ++ t ++ sq ++ " does not exist"))
      | some td =>
        match tableInsert td.schema td.rows values with
        | (_, .error e) => (st, mkFail (errMsg e))
        | (rows2, .ok row) =>
          (alistUpd st t ⟨td.schema, rows2⟩,
           { success := true,
             message := some ("Inserted 1 row into " ++ sq ++ t ++ sq),
             table := some t, insertedRow := some row })
    | .selectC t cols wc =>
      match alistGet st t with
      | none => (st, mkFail ("Table " ++ sq ++ t ++ sq ++ " does not exist"))
      | some td =>
        match tableSelect td.schema td.rows (some cols) wc with
        | .error e => (st, mkFail (errMsg e))
        | .ok out =>
          (st, { success := true, table := some t, resultColumns := some cols,
                 resultRows := some out, count := some out.length })
    | .updateC t upds wc =>
      match alistGet st t with
      | none => (st, mkFail ("Table " ++ sq ++ t ++ sq ++ " does not exist"))
      | some td =>
        match tableUpdate td.schema td.rows upds wc with
        | (_, .error e) => (st, mkFail (errMsg e))
        | (rows2, .ok n) =>
          (alistUpd st t ⟨td.schema, rows2⟩,
           { success := true,
             message := some ("Updated " ++ toString n ++ " row(s) in " ++ sq ++ t ++ sq),
             table := some t, count := some n })
    | .deleteC t wc =>
      match alistGet st t with
      | none => (st, mkFail ("Table " ++ sq ++ t ++ sq ++ " does not exist"))
      | some td =>
        match tableDelete td.rows wc with
        | (_, .error e) => (st, mkFail (errMsg e))
        | (rows2, .ok n) =>
          (alistUpd st t ⟨td.schema, rows2⟩,
           { success := true,
             message := some ("Deleted " ++ toString n ++ " row(s) from " ++ sq ++ t ++ sq),
             table := some t, count := some n })

namespace SpecModel

/-- Modelled from the spec: the declared column types of the primary-key
table engine (spec section 3). -/
inductive SpecType where
  | sstring
  | sinteger
  | sfloat
  | sboolean
deriving DecidableEq, Repr

/-- Modelled from the spec: the errors of the primary-key table engine
(spec sections 4.3 and 7).  Its module (the `Table` with `primary_key`,
`index` and `DuplicateKeyError` imported by `test_primary_key.py`,
`test_validation.py` and `app/app.py`) is absent from the sources. -/
inductive SpecErr where
  | typeErr (column : String) (value : Value) (expected : SpecType)
  | duplicateKey (k : Value)
deriving DecidableEq, Repr

/-- Modelled from the spec: value coercion of the missing engine (spec
section 4.3): string takes `to_string`; integer parses integers with
booleans as 1/0; float parses floats; boolean accepts booleans and the
case-insensitive true/1/yes/y and false/0/no/n spellings. -/
def specCoerce (column : String) (v : Value) : SpecType → Except SpecErr Value
  | .sstring => .ok (.str (pyStrOfValue v))
  | .sinteger =>
    match v with
    | .null => .ok .null
    | .bool b => .ok (.int (if b then 1 else 0))
    | .int n => .ok (.int n)
    | .float q => .ok (.int (pyTrunc q))
    | .str s =>
      match pyIntOfString s with
      | some n => .ok (.int n)
      | none => .error (.typeErr column v .sinteger)
  | .sfloat =>
    match v with
    | .null => .ok .null
    | .bool b => .ok (.float (if b then 1 else 0))
    | .int n => .ok (.float (n : ℚ))
    | .float q => .ok (.float q)
    | .str s =>
      match pyFloatOfString s with
      | some q => .ok (.float q)
      | none => .error (.typeErr column v .sfloat)
  | .sboolean =>
    match v with
    | .null => .ok .null
    | .bool b => .ok (.bool b)
    | .str s =>
      if ["true", "1", "yes", "y"].contains (pyLower s) then .ok (.bool true)
      else if ["false", "0", "no", "n"].contains (pyLower s) then .ok (.bool false)
      else .error (.typeErr column v .sboolean)
    | _ => .error (.typeErr column v .sboolean)

/-- Modelled from the spec: one table of the missing engine — its ordered
column declarations, optional primary-key column, row log, and in-memory
primary-key index (spec section 3). -/
structure PkTable where
  columns : List (String × SpecType)
  primaryKey : Option String
  rows : List Row
  index : List (Value × Row)
deriving DecidableEq, Repr

/-- Whether a key value is present in the index. -/
def idxHas (ix : List (Value × Row)) (k : Value) : Bool :=
  ix.any (fun p => p.1 = k)

/-- Insert or overwrite an index entry. -/
def idxPut : List (Value × Row) → Value → Row → List (Value × Row)
  | [], k, r => [(k, r)]
  | (k2, r2) :: ix, k, r =>
    if k2 = k then (k2, r) :: ix else (k2, r2) :: idxPut ix k r

/-- Modelled from the spec: the declared part of the row built by insert —
for every declared column, the supplied value (or null if absent) coerced
to the column type (spec section 4.3). -/
def specBuildRow (values : List (String × Value)) :
    List (String × SpecType) → Except SpecErr Row
  | [] => .ok []
  | (c, ty) :: cols =>
    match specCoerce c ((alistGet values c).getD .null) ty with
    | .error e => .error e
    | .ok v2 => (specBuildRow values cols).map (fun tail => (c, v2) :: tail)

/-- Modelled from the spec: the full stored row — declared columns followed
by the pass-through keys carried unmodified (spec section 4.3). -/
def specRowOf (t : PkTable) (values : List (String × Value)) : Except SpecErr Row :=
  match specBuildRow values t.columns with
  | .error e => .error e
  | .ok declared =>
    .ok (declared ++ values.filter (fun p => ¬ (t.columns.map Prod.fst).contains p.1))

/-- Modelled from the spec: `insert` of the missing primary-key engine.
If a primary key is declared and the coerced key value is non-null and
already present in the index, it fails with `DuplicateKeyError` before any
write; otherwise it appends the row to the log and updates the index.  The
first component is the table state after the call. -/
def specInsert (t : PkTable) (values : List (String × Value)) :
    PkTable × Except SpecErr Row :=
  match specRowOf t values with
  | .error e => (t, .error e)
  | .ok row =>
    match t.primaryKey with
    | none => ({ t with rows := t.rows ++ [row] }, .ok row)
    | some pk =>
      let k := (alistGet row pk).getD .null
      if ¬ k = .null ∧ idxHas t.index k then (t, .error (.duplicateKey k))
      else
        ({ t with rows := t.rows ++ [row],
                  index := if k = .null then t.index else idxPut t.index k row },
         .ok row)

end SpecModel

/-- Whether a row passes the optional WHERE clause without an evaluation
error. -/
def rowMatchB (wc : Option WhereClause) (r : Row) : Bool :=
  match rowMatches wc r with
  | .ok true => true
  | _ => false

/-- Iterated `Table.insert` on a row log; `none` when some insert raises. -/
def insertAllOk (schema : Schema) : List Row → List (List Value) → Option (List Row)
  | rows, [] => some rows
  | rows, vs :: vss =>
    match tableInsert schema rows vs with
    | (rows2, .ok _) => insertAllOk schema rows2 vss
    | (_, .error _) => none

/-- Every row of the log has exactly the schema columns as its keys, in
schema order (the shape `Table.insert` produces). -/
def RowsShaped (schema : Schema) (rows : List Row) : Prop :=
  ∀ r ∈ rows, r.map Prod.fst = schema.map Prod.fst

/-! ## Helper lemmas -/

theorem strAppendNeEmpty (s t : String) (h : ¬ s = "") : ¬ (s ++ t) = "" := by
  intro he
  apply h
  have h2 : s.data ++ t.data = ([] : List Char) := congrArg String.data he
  obtain ⟨h3, _⟩ := List.append_eq_nil.mp h2
  cases s with
  | mk d => cases h3; rfl

theorem errMsgNeEmpty (e : PyErr) : ¬ errMsg e = "" := by
  cases e <;> simp only [errMsg] <;> (repeat' first | decide | apply strAppendNeEmpty)

theorem pyEqBNullRight (v : Value) : pyEqB v Value.null = decide (v = Value.null) := by
  cases v <;> simp [pyEqB, numQ]

/-! ## C2: `Database.execute` never throws and always returns a structured
result -/

/-- C2: for every database state and every input string, `execute` returns
either a success result or a structured failure carrying a non-empty
human-readable error message (every parse, validation, coercion or
missing-table error raised below it is converted, never propagated). -/
theorem executeStructured (st : DbState) (sql : String) :
    (execute st sql).2.success = true ∨
    ∃ m, (execute st sql).2.error = some m ∧ ¬ m = "" := by
  unfold execute
  repeat' split
  all_goals
    first
    | exact Or.inl rfl
    | exact Or.inr ⟨_, rfl, errMsgNeEmpty _⟩
    | exact Or.inr ⟨_, rfl, by repeat' first | decide | apply strAppendNeEmpty⟩

/-! ## C4: WHERE evaluation on absent columns and null literals -/

/-- C4 counterexample: the claim says `=` against a null literal succeeds
when the column is absent from the row, but `Table._evaluate_where` returns
False for an absent column unconditionally (the `column not in row` check
comes first). -/
theorem evalWhereNullLiteralAbsentCx :
    evalWhere [] ⟨"a", "=", Value.null⟩ = .ok false ∧
    ¬ evalWhere [] ⟨"a", "=", Value.null⟩ = .ok true := by
  constructor
  · rfl
  · intro h
    exact absurd (Except.ok.inj h) (by decide)

/-- C4 as amended: a column absent from the row fails the comparison for
every operator, including `=`/`!=` against a null literal; when the column
is present and the literal is null, `=` succeeds exactly when the row value
is null, `!=` exactly when it is non-null, and every other operator fails. -/
theorem evalWhereAbsentAndNull (row : Row) (w : WhereClause) :
    (alistGet row w.column = none → evalWhere row w = .ok false) ∧
    (∀ v, alistGet row w.column = some v → w.value = Value.null →
      (w.op = "=" → evalWhere row w = .ok (decide (v = Value.null))) ∧
      (w.op = "!=" → evalWhere row w = .ok (!decide (v = Value.null))) ∧
      (¬ w.op = "=" → ¬ w.op = "!=" → evalWhere row w = .ok false)) := by
  constructor
  · intro h; simp only [evalWhere, h]
  · intro v hv hnull
    have hcond : v = Value.null ∨ w.value = Value.null := Or.inr hnull
    refine ⟨?_, ?_, ?_⟩
    · intro hop
      simp only [evalWhere, hv]
      rw [if_pos hcond, if_pos hop, hnull, pyEqBNullRight]
    · intro hop
      have hne : ¬ w.op = "=" := by rw [hop]; decide
      simp only [evalWhere, hv]
      rw [if_pos hcond, if_neg hne, if_pos hop, hnull, pyEqBNullRight]
    · intro h1 h2
      simp only [evalWhere, hv]
      rw [if_pos hcond, if_neg h1, if_neg h2]

/-- Witness for the amended C4 at a concrete input. -/
theorem evalWhereAbsentAndNullWitness :
    alistGet [("b", Value.int 1)] "a" = none ∧
    evalWhere [("b", Value.int 1)] ⟨"a", "=", Value.null⟩ = .ok false := by
  refine ⟨rfl, ?_⟩
  exact (evalWhereAbsentAndNull [("b", Value.int 1)] ⟨"a", "=", Value.null⟩).1 rfl

/-! ## C5: the literal lexer is total and falls back to the bare token -/

/-- C5: `SQLParser._parse_value` is a total function (it returns a `Value`
for every input string); a token that is not NULL, TRUE/FALSE, quoted, or a
parseable number is returned verbatim as a bare string (the function
operates on the stripped token, so for an already-trimmed token the result
is the input itself). -/
theorem parseValueTokFallback (s : String)
    (h1 : ¬ pyUpper (pyStrip s) = "NULL")
    (h2 : ¬ pyUpper (pyStrip s) = "TRUE")
    (h3 : ¬ pyUpper (pyStrip s) = "FALSE")
    (h4 : isQuotedTok (pyStrip s) = false)
    (h5 : (pyStrip s).data.contains '.' = true → pyFloatOfString (pyStrip s) = none)
    (h6 : (pyStrip s).data.contains '.' = false → pyIntOfString (pyStrip s) = none) :
    parseValueTok s = Value.str (pyStrip s) ∧
    (pyStrip s = s → parseValueTok s = Value.str s) := by
  have hq : ¬ isQuotedTok (pyStrip s) = true := by rw [h4]; decide
  have hmain : parseValueTok s = Value.str (pyStrip s) := by
    simp only [parseValueTok]
    rw [if_neg h1, if_neg h2, if_neg h3, if_neg hq]
    cases hc : (pyStrip s).data.contains '.' with
    | true =>
      rw [if_pos rfl, h5 hc]
    | false =>
      rw [if_neg (by decide), h6 hc]
  refine ⟨hmain, fun he => ?_⟩
  rw [he] at hmain
  exact hmain

/-- Witness for C5 at a concrete non-special token. -/
theorem parseValueTokFallbackWitness :
    parseValueTok "hello@world" = Value.str "hello@world" := by
  have h := parseValueTokFallback "hello@world" (by decide) (by decide) (by decide)
    (by decide) (by decide) (by decide)
  exact h.2 (by decide)

/-! ## C9: unknown projection columns fail before the log is read -/

theorem checkColsFindsBad (schema : Schema) (cols : List String)
    (h : ∃ c ∈ cols, alistGet schema c = none) :
    ∃ c2, checkCols schema cols = some c2 ∧ c2 ∈ cols ∧ alistGet schema c2 = none := by
  induction cols with
  | nil => obtain ⟨c, hc, _⟩ := h; cases hc
  | cons d ds ih =>
    by_cases hd : (alistGet schema d).isSome = true
    · have hdsome : ¬ alistGet schema d = none := by
        intro hn; rw [hn] at hd; exact absurd hd (by decide)
      have h2 : ∃ c ∈ ds, alistGet schema c = none := by
        obtain ⟨c, hc, hnone⟩ := h
        rcases List.mem_cons.mp hc with rfl | hmem
        · exact absurd hnone hdsome
        · exact ⟨c, hmem, hnone⟩
      obtain ⟨c2, hck, hmem, hnone⟩ := ih h2
      refine ⟨c2, ?_, List.mem_cons_of_mem _ hmem, hnone⟩
      simp only [checkCols, if_pos hd, hck]
    · refine ⟨d, ?_, List.mem_cons_self _ _, ?_⟩
      · simp only [checkCols, if_neg hd]
      · cases hg : alistGet schema d with
        | none => rfl
        | some t => rw [hg] at hd; exact absurd rfl hd

/-- C9: a select whose explicit projection list (other than `['*']`)
contains an undeclared column fails with an error naming the offending
column, for every table content — the error is raised before any row of the
log is read (the result does not depend on the rows at all). -/
theorem selectUnknownColumn (schema : Schema) (cols : List String) (wc : Option WhereClause)
    (hstar : ¬ cols = ["*"])
    (hbad : ∃ c ∈ cols, alistGet schema c = none) :
    ∃ c2, c2 ∈ cols ∧ alistGet schema c2 = none ∧
      (∀ rows : List Row,
        tableSelect schema rows (some cols) wc = .error (.noSuchColumn c2)) ∧
      errMsg (.noSuchColumn c2) =
        "Column " ++ sq ++ c2 ++ sq ++ " does not exist in table" := by
  obtain ⟨c2, hck, hmem, hnone⟩ := checkColsFindsBad schema cols hbad
  refine ⟨c2, hmem, hnone, fun rows => ?_, rfl⟩
  simp only [tableSelect, selCols]
  rw [if_neg hstar, hck]

/-- Witness for C9 at a concrete input. -/
theorem selectUnknownColumnWitness :
    ∃ c2, c2 ∈ ["zip"] ∧ alistGet ([("a", "TEXT")] : Schema) c2 = none ∧
      (∀ rows : List Row,
        tableSelect [("a", "TEXT")] rows (some ["zip"]) none = .error (.noSuchColumn c2)) ∧
      errMsg (.noSuchColumn c2) =
        "Column " ++ sq ++ c2 ++ sq ++ " does not exist in table" :=
  selectUnknownColumn [("a", "TEXT")] ["zip"] none (by decide) ⟨"zip", by simp, rfl⟩

/-! ## C10: update validates SET values before touching the log -/

theorem validateUpdatesErr (schema : Schema) (upds : List (String × Value))
    (hbad : ∃ p ∈ upds, alistGet schema p.1 = none ∨
      ∃ t e, alistGet schema p.1 = some t ∧ validateType p.2 t = .error e) :
    ∃ e, validateUpdates schema upds = .error e := by
  induction upds with
  | nil => obtain ⟨p, hp, _⟩ := hbad; cases hp
  | cons q qs ih =>
    obtain ⟨c, v⟩ := q
    cases hg : alistGet schema c with
    | none => exact ⟨.noSuchUpdateColumn c, by simp only [validateUpdates, hg]⟩
    | some t =>
      cases hvt : validateType v t with
      | error e => exact ⟨e, by simp only [validateUpdates, hg, hvt]⟩
      | ok v2 =>
        have h2 : ∃ p ∈ qs, alistGet schema p.1 = none ∨
            ∃ t2 e2, alistGet schema p.1 = some t2 ∧ validateType p.2 t2 = .error e2 := by
          obtain ⟨p, hp, hbadp⟩ := hbad
          rcases List.mem_cons.mp hp with rfl | hmem
          · rcases hbadp with hnone | ⟨t2, e2, hsome, herr⟩
            · rw [hg] at hnone; cases hnone
            · rw [hg] at hsome
              injection hsome with ht
              subst ht
              rw [hvt] at herr
              cases herr
          · exact ⟨p, hmem, hbadp⟩
        obtain ⟨e, he⟩ := ih h2
        exact ⟨e, by simp only [validateUpdates, hg, hvt, he]; rfl⟩

/-- C10: if any SET column is undeclared, or any SET value fails coercion to
its declared type, `Table.update` fails and leaves the row log completely
unchanged, whatever the log contains (the validation runs before the log is
read or rewritten). -/
theorem updateValidatesBeforeScan (schema : Schema) (upds : List (String × Value))
    (wc : Option WhereClause)
    (hbad : ∃ p ∈ upds, alistGet schema p.1 = none ∨
      ∃ t e, alistGet schema p.1 = some t ∧ validateType p.2 t = .error e) :
    ∃ e, ∀ rows : List Row, tableUpdate schema rows upds wc = (rows, .error e) := by
  obtain ⟨e, he⟩ := validateUpdatesErr schema upds hbad
  exact ⟨e, fun rows => by simp only [tableUpdate, he]⟩

/-- Witness for C10 at a concrete input (an undeclared SET column). -/
theorem updateValidatesBeforeScanWitness :
    ∃ e, ∀ rows : List Row,
      tableUpdate [("a", "TEXT")] rows [("zip", Value.int 1)] none = (rows, .error e) :=
  updateValidatesBeforeScan [("a", "TEXT")] [("zip", Value.int 1)] none
    ⟨("zip", Value.int 1), by simp, Or.inl rfl⟩

/-! ## C8: update/delete with no matching rows leave the log unchanged -/

theorem updateLoopNoMatch (upds : List (String × Value)) (w : WhereClause) (rows : List Row)
    (hw : ∀ r ∈ rows, evalWhere r w = .ok false) :
    updateLoop upds (some w) rows = .ok (rows, 0) := by
  induction rows with
  | nil => rfl
  | cons r rs ih =>
    have h1 : rowMatches (some w) r = .ok false := hw r (List.mem_cons_self _ _)
    have h2 := ih (fun r2 hr2 => hw r2 (List.mem_cons_of_mem _ hr2))
    simp only [updateLoop, h1, h2]
    rfl

theorem deleteLoopNoMatch (w : WhereClause) (rows : List Row)
    (hw : ∀ r ∈ rows, evalWhere r w = .ok false) :
    deleteLoop (some w) rows = .ok (rows, 0) := by
  induction rows with
  | nil => rfl
  | cons r rs ih =>
    have h1 : rowMatches (some w) r = .ok false := hw r (List.mem_cons_self _ _)
    have h2 := ih (fun r2 hr2 => hw r2 (List.mem_cons_of_mem _ hr2))
    simp only [deleteLoop, h1, h2]
    rfl

/-- C8: an update (with a validating SET clause) or a delete whose WHERE
clause matches no stored row returns count 0 and leaves the row log exactly
as it was: every stored row unchanged, in the same order. -/
theorem updateDeleteNoMatchFrame (schema : Schema) (rows : List Row)
    (upds upds2 : List (String × Value)) (w : WhereClause)
    (hv : validateUpdates schema upds = .ok upds2)
    (hw : ∀ r ∈ rows, evalWhere r w = .ok false) :
    tableUpdate schema rows upds (some w) = (rows, .ok 0) ∧
    tableDelete rows (some w) = (rows, .ok 0) := by
  constructor
  · simp only [tableUpdate, hv, updateLoopNoMatch upds2 w rows hw]
  · simp only [tableDelete, deleteLoopNoMatch w rows hw]

/-- Witness for C8 at a concrete input. -/
theorem updateDeleteNoMatchFrameWitness :
    tableUpdate [("a", "INTEGER")] [[("a", Value.int 1)]] [("a", Value.int 5)]
      (some ⟨"a", "=", Value.int 2⟩) = ([[("a", Value.int 1)]], .ok 0) ∧
    tableDelete [[("a", Value.int 1)]] (some ⟨"a", "=", Value.int 2⟩) =
      ([[("a", Value.int 1)]], .ok 0) := by
  apply updateDeleteNoMatchFrame [("a", "INTEGER")] [[("a", Value.int 1)]]
    [("a", Value.int 5)] [("a", Value.int 5)] ⟨"a", "=", Value.int 2⟩ rfl
  intro r hr
  rcases List.mem_singleton.mp hr with rfl
  rfl

/-! ## C3: insert/select round trip -/

theorem alistUpdNotMem {α : Type} (r : List (String × α)) (c : String) (v : α)
    (h : ¬ c ∈ r.map Prod.fst) : alistUpd r c v = r ++ [(c, v)] := by
  induction r with
  | nil => rfl
  | cons p ps ih =>
    obtain ⟨c2, v2⟩ := p
    have h1 : ¬ c2 = c := fun he => h (by simp [he])
    have h2 : ¬ c ∈ ps.map Prod.fst := fun hm => h (by simp [hm])
    simp only [alistUpd, if_neg h1, ih h2, List.cons_append]

theorem buildRowAuxKeys (pairs : List ((String × String) × Value)) :
    ∀ (acc row : Row),
      (acc.map Prod.fst ++ pairs.map (fun p => p.1.1)).Nodup →
      buildRowAux acc pairs = .ok row →
      row.map Prod.fst = acc.map Prod.fst ++ pairs.map (fun p => p.1.1) := by
  induction pairs with
  | nil =>
    intro acc row hnd h
    simp only [buildRowAux] at h
    obtain rfl := Except.ok.inj h
    simp
  | cons p ps ih =>
    intro acc row hnd h
    obtain ⟨⟨c, t⟩, v⟩ := p
    simp only [buildRowAux] at h
    cases hvt : validateType v t with
    | error e =>
      rw [hvt] at h
      have h2 : (Except.error e : Except PyErr Row) = .ok row := h
      cases h2
    | ok v2 =>
      rw [hvt] at h
      have h2 : buildRowAux (alistUpd acc c v2) ps = .ok row := h
      have hnotmem : ¬ c ∈ acc.map Prod.fst := by
        intro hm
        exact (List.nodup_append.mp hnd).2.2 hm (List.mem_cons_self _ _)
      rw [alistUpdNotMem acc c v2 hnotmem] at h2
      have hnd2 : ((acc ++ [(c, v2)]).map Prod.fst ++ ps.map (fun p => p.1.1)).Nodup := by
        simpa [List.append_assoc] using hnd
      have hres := ih (acc ++ [(c, v2)]) row hnd2 h2
      simp only [List.map_append, List.map_cons] at hres ⊢
      rw [hres]
      simp

theorem tableInsertOk (schema : Schema) (rows rows2 : List Row) (vs : List Value) (row : Row)
    (hnd : (schema.map Prod.fst).Nodup)
    (h : tableInsert schema rows vs = (rows2, .ok row)) :
    rows2 = rows ++ [row] ∧ row.map Prod.fst = schema.map Prod.fst := by
  unfold tableInsert at h
  by_cases hlen : vs.length = schema.length
  · rw [if_pos hlen] at h
    cases hb : buildRowAux [] (schema.zip vs) with
    | error e => rw [hb] at h; simp at h
    | ok row0 =>
      rw [hb] at h
      obtain ⟨h1, h2⟩ := Prod.mk.injEq _ _ _ _ |>.mp h
      obtain rfl := Except.ok.inj h2
      refine ⟨h1.symm, ?_⟩
      have hzip : (schema.zip vs).map (fun p => p.1.1) = schema.map Prod.fst := by
        have hm : (schema.zip vs).map (fun p => p.1.1) =
            ((schema.zip vs).map Prod.fst).map Prod.fst := by
          simp [List.map_map]
        rw [hm, List.map_fst_zip _ _ (le_of_eq hlen.symm)]
      have hkeys := buildRowAuxKeys (schema.zip vs) [] row0 (by simpa [hzip] using hnd) hb
      simpa [hzip] using hkeys
  · rw [if_neg hlen] at h; simp at h

theorem insertAllOkShaped (schema : Schema) (hnd : (schema.map Prod.fst).Nodup) :
    ∀ (vss : List (List Value)) (rows rows2 : List Row),
      RowsShaped schema rows → insertAllOk schema rows vss = some rows2 →
      RowsShaped schema rows2 := by
  intro vss
  induction vss with
  | nil =>
    intro rows rows2 hsh h
    simp only [insertAllOk] at h
    obtain rfl := Option.some.inj h
    exact hsh
  | cons vs vss ih =>
    intro rows rows2 hsh h
    simp only [insertAllOk] at h
    cases hins : tableInsert schema rows vs with
    | mk rows3 res =>
      rw [hins] at h
      cases res with
      | error e => cases h
      | ok row =>
        obtain ⟨hr, hk⟩ := tableInsertOk schema rows rows3 vs row hnd hins
        subst hr
        apply ih (rows ++ [row]) rows2 ?_ h
        intro r hr2
        rcases List.mem_append.mp hr2 with hmem | hmem
        · exact hsh r hmem
        · rcases List.mem_singleton.mp hmem with rfl
          exact hk

theorem foldlAlistUpdFresh (f : String → Value) :
    ∀ (cols : List String) (acc : Row),
      cols.Nodup → (∀ c ∈ cols, ¬ c ∈ acc.map Prod.fst) →
      cols.foldl (fun a c => alistUpd a c (f c)) acc =
        acc ++ cols.map (fun c => (c, f c)) := by
  intro cols
  induction cols with
  | nil => intro acc _ _; simp
  | cons c cs ih =>
    intro acc hnd hfresh
    simp only [List.foldl_cons]
    rw [alistUpdNotMem acc c (f c) (hfresh c (List.mem_cons_self _ _))]
    rw [ih (acc ++ [(c, f c)]) (List.nodup_cons.mp hnd).2 ?_]
    · simp
    · intro c2 hc2 hmem
      rw [List.map_append] at hmem
      rcases List.mem_append.mp hmem with hm | hm
      · exact hfresh c2 (List.mem_cons_of_mem _ hc2) hm
      · simp only [List.map_cons, List.map_nil, List.mem_singleton] at hm
        subst hm
        exact (List.nodup_cons.mp hnd).1 hc2

theorem projectRowEq (cols : List String) (row : Row) (hnd : cols.Nodup) :
    projectRow cols row = cols.map (fun c => (c, (alistGet row c).getD Value.null)) := by
  unfold projectRow
  rw [foldlAlistUpdFresh _ cols [] hnd (fun c _ h => absurd h (List.not_mem_nil c))]
  simp

theorem mapGetSelf (row : Row) (hnd : (row.map Prod.fst).Nodup) :
    (row.map Prod.fst).map (fun c => (c, (alistGet row c).getD Value.null)) = row := by
  induction row with
  | nil => rfl
  | cons p r ih =>
    obtain ⟨c, v⟩ := p
    simp only [List.map_cons]
    congr 1
    · simp [alistGet]
    · have hstep : ∀ c2 ∈ r.map Prod.fst,
          (c2, (alistGet ((c, v) :: r) c2).getD Value.null) =
          (c2, (alistGet r c2).getD Value.null) := by
        intro c2 hc2
        have hne : ¬ c = c2 := by
          intro he
          subst he
          exact (List.nodup_cons.mp hnd).1 hc2
        simp [alistGet, hne]
      rw [List.map_congr_left hstep, ih (List.nodup_cons.mp hnd).2]

theorem selectLoopNoWhere (cols : List String) (rows : List Row) :
    selectLoop cols none rows = .ok (rows.map (projectRow cols)) := by
  induction rows with
  | nil => rfl
  | cons r rs ih => simp only [selectLoop, ih]; rfl

theorem alistGetIsSomeOfMem {α : Type} (l : List (String × α)) (c : String)
    (h : c ∈ l.map Prod.fst) : (alistGet l c).isSome = true := by
  induction l with
  | nil => cases h
  | cons p ps ih =>
    obtain ⟨c2, v2⟩ := p
    by_cases he : c2 = c
    · simp [alistGet, he]
    · simp only [alistGet, if_neg he]
      apply ih
      rcases List.mem_cons.mp h with h2 | h2
      · exact absurd h2.symm he
      · exact h2

theorem checkColsNoneOfAll (schema : Schema) (cols : List String)
    (h : ∀ c ∈ cols, (alistGet schema c).isSome = true) :
    checkCols schema cols = none := by
  induction cols with
  | nil => rfl
  | cons c cs ih =>
    simp only [checkCols, if_pos (h c (List.mem_cons_self _ _))]
    exact ih (fun c2 hc2 => h c2 (List.mem_cons_of_mem _ hc2))

/-- C3: starting from an empty (freshly created) table, after any sequence
of successful inserts, select with no WHERE clause and no explicit
projection returns exactly the stored rows, in insertion order (the default
projection to the full schema leaves each stored row unchanged); in
particular every inserted row — the last one included — is in the result. -/
theorem insertSelectRoundtrip (schema : Schema) (vss : List (List Value)) (rows : List Row)
    (hnd : (schema.map Prod.fst).Nodup)
    (h : insertAllOk schema [] vss = some rows) :
    tableSelect schema rows none none = .ok rows ∧
    ∀ R ∈ rows, ∃ out, tableSelect schema rows none none = .ok out ∧ R ∈ out := by
  have hsh : RowsShaped schema rows :=
    insertAllOkShaped schema hnd vss [] rows (fun r hr => absurd hr (List.not_mem_nil r)) h
  have hsel : tableSelect schema rows none none = .ok rows := by
    simp only [tableSelect, selCols]
    rw [checkColsNoneOfAll schema _ (fun c hc => alistGetIsSomeOfMem schema c hc)]
    rw [selectLoopNoWhere]
    have hid : ∀ r ∈ rows, projectRow (schema.map Prod.fst) r = r := by
      intro r hr
      rw [projectRowEq _ _ hnd, ← hsh r hr]
      exact mapGetSelf r (by rw [hsh r hr]; exact hnd)
    rw [List.map_congr_left hid, List.map_id']
  exact ⟨hsel, fun R hR => ⟨rows, hsel, hR⟩⟩

/-- Witness for C3 at a concrete table and insert. -/
theorem insertSelectRoundtripWitness :
    insertAllOk [("id", "INTEGER"), ("name", "TEXT")] []
      [[Value.int 1, Value.str "Alice"]] =
      some [[("id", Value.int 1), ("name", Value.str "Alice")]] ∧
    tableSelect [("id", "INTEGER"), ("name", "TEXT")]
      [[("id", Value.int 1), ("name", Value.str "Alice")]] none none =
      .ok [[("id", Value.int 1), ("name", Value.str "Alice")]] := by
  refine ⟨rfl, ?_⟩
  exact (insertSelectRoundtrip [("id", "INTEGER"), ("name", "TEXT")]
    [[Value.int 1, Value.str "Alice"]] [[("id", Value.int 1), ("name", Value.str "Alice")]]
    (by decide) rfl).1

/-! ## C6: unknown column types in CREATE TABLE -/

theorem parseColDefsAppend (xs : List String) :
    ∀ (acc : Schema) (ys : List String),
      parseColDefs acc (xs ++ ys) =
        match parseColDefs acc xs with
        | .ok acc2 => parseColDefs acc2 ys
        | .error e => .error e := by
  induction xs with
  | nil => intro acc ys; rfl
  | cons d ds ih =>
    intro acc ys
    simp only [List.cons_append, parseColDefs, List.append_eq]
    by_cases hcd : pyStrip d = ""
    · rw [if_pos hcd, if_pos hcd, ih]
    · rw [if_neg hcd, if_neg hcd]
      cases hsp : pySplitWs (pyStrip d) with
      | nil => rfl
      | cons c rest =>
        cases rest with
        | nil => rfl
        | cons t rest2 =>
          dsimp only
          by_cases hty : allowedTypes.contains (pyUpper t) = true
          · rw [if_pos hty, if_pos hty, ih]
          · rw [if_neg hty, if_neg hty]

/-- C6 counterexample: the claim says unknown type keywords are accepted as
opaque type names, but `SQLParser._parse_create` rejects them — the concrete
statement `CREATE TABLE t (a VARCHAR)` fails to parse. -/
theorem createUnknownTypeCx :
    parseSql "CREATE TABLE t (a VARCHAR)" = .error (.unsupportedColType "VARCHAR") ∧
    ¬ ∃ cmd, parseSql "CREATE TABLE t (a VARCHAR)" = .ok cmd := by
  refine ⟨rfl, ?_⟩
  rintro ⟨cmd, hcmd⟩
  have h2 : (Except.error (PyErr.unsupportedColType "VARCHAR") : Except PyErr Command) =
      .ok cmd := hcmd
  cases h2

/-- C6 as amended: a CREATE TABLE column definition whose (uppercased) type
keyword is not one of TEXT, INTEGER, FLOAT, BOOLEAN makes parsing fail with
an Unsupported-column-type error (the first such definition after the
well-formed ones wins). -/
theorem createRejectsUnknownType (pre : List String) (d : String) (post : List String)
    (acc2 : Schema) (c t : String) (rest : List String)
    (hpre : parseColDefs [] pre = .ok acc2)
    (hne : ¬ pyStrip d = "")
    (hsplit : pySplitWs (pyStrip d) = c :: t :: rest)
    (hty : allowedTypes.contains (pyUpper t) = false) :
    parseColDefs [] (pre ++ d :: post) = .error (.unsupportedColType (pyUpper t)) ∧
    ∀ tbl body, splitComma body = pre ++ d :: post →
      parseCreateCmd tbl body = .error (.unsupportedColType (pyUpper t)) := by
  have h1 : parseColDefs [] (pre ++ d :: post) =
      .error (.unsupportedColType (pyUpper t)) := by
    rw [parseColDefsAppend, hpre]
    simp only [parseColDefs, if_neg hne, hsplit]
    rw [if_neg (by rw [hty]; decide)]
  refine ⟨h1, fun tbl body hb => ?_⟩
  simp only [parseCreateCmd, hb, h1]

/-- Witness for the amended C6 at a concrete column definition. -/
theorem createRejectsUnknownTypeWitness :
    parseColDefs [] ["a VARCHAR"] = .error (.unsupportedColType "VARCHAR") ∧
    parseCreateCmd "t" "a VARCHAR" = .error (.unsupportedColType "VARCHAR") := by
  have h := createRejectsUnknownType [] "a VARCHAR" [] [] "a" "VARCHAR" []
    rfl (by decide) rfl rfl
  exact ⟨h.1, h.2 "t" "a VARCHAR" rfl⟩

/-! ## C7: LIMIT in SELECT statements -/

theorem selectLoopChar (cols : List String) (wc : Option WhereClause) :
    ∀ (rows out : List Row), selectLoop cols wc rows = .ok out →
      out = (rows.filter (rowMatchB wc)).map (projectRow cols) := by
  intro rows
  induction rows with
  | nil =>
    intro out h
    obtain rfl := Except.ok.inj h
    rfl
  | cons r rs ih =>
    intro out h
    cases wc with
    | none =>
      simp only [selectLoop] at h
      cases hrec : selectLoop cols none rs with
      | error e =>
        rw [hrec] at h
        have h2 : (Except.error e : Except PyErr (List Row)) = .ok out := h
        cases h2
      | ok out2 =>
        rw [hrec] at h
        have h2 : Except.ok (projectRow cols r :: out2) = Except.ok out := h
        obtain rfl := Except.ok.inj h2
        rw [ih out2 hrec]
        simp [List.filter_cons, rowMatchB, rowMatches]
    | some w =>
      simp only [selectLoop] at h
      cases hev : evalWhere r w with
      | error e =>
        rw [hev] at h
        have h2 : (Except.error e : Except PyErr (List Row)) = .ok out := h
        cases h2
      | ok b =>
        rw [hev] at h
        cases b with
        | true =>
          cases hrec : selectLoop cols (some w) rs with
          | error e =>
            rw [hrec] at h
            have h2 : (Except.error e : Except PyErr (List Row)) = .ok out := h
            cases h2
          | ok out2 =>
            rw [hrec] at h
            have h2 : Except.ok (projectRow cols r :: out2) = Except.ok out := h
            obtain rfl := Except.ok.inj h2
            have hmB : rowMatchB (some w) r = true := by
              simp [rowMatchB, rowMatches, hev]
            rw [ih out2 hrec]
            simp [List.filter_cons, hmB]
        | false =>
          have h2 : selectLoop cols (some w) rs = .ok out := h
          have hmB : rowMatchB (some w) r = false := by
            simp [rowMatchB, rowMatches, hev]
          rw [ih out h2]
          simp [List.filter_cons, hmB]

/-- C7 counterexample: on a two-row table the claim allows at most 1 row for
`SELECT * FROM t LIMIT 1`, but the statement parses with the LIMIT clause
silently dropped and the full scan (2 rows) is returned. -/
theorem selectLimitIgnoredCx :
    (((execute [("t", ⟨[("id", "INTEGER")], [[("id", Value.int 1)], [("id", Value.int 2)]]⟩)]
        "SELECT * FROM t LIMIT 1").2.resultRows).map List.length) = some 2 ∧
    ¬ (2 : Nat) ≤ 1 := ⟨rfl, by decide⟩

/-- C7 as amended: a LIMIT clause in a SELECT statement is never applied as
a row limit — a successful select always returns the full unlimited scan,
exactly the projections of all matching rows, whatever the statement said.
The parser extracts no limit: without a WHERE clause the trailing LIMIT
text is dropped (concretely, `SELECT * FROM t LIMIT 1` parses identically
to `SELECT * FROM t`), while with a WHERE clause the LIMIT text is absorbed
into the WHERE literal (concretely, `SELECT * FROM t WHERE id = 1 LIMIT 5`
parses with the predicate literal being the string `1 LIMIT 5`). -/
theorem selectNoTruncation :
    (∀ (schema : Schema) (rows : List Row) (columns : Option (List String))
        (wc : Option WhereClause) (out : List Row),
        tableSelect schema rows columns wc = .ok out →
        out = (rows.filter (rowMatchB wc)).map (projectRow (selCols schema columns))) ∧
    parseSql "SELECT * FROM t LIMIT 1" = parseSql "SELECT * FROM t" ∧
    parseSql "SELECT * FROM t WHERE id = 1 LIMIT 5" =
      .ok (.selectC "t" ["*"] (some ⟨"id", "=", Value.str "1 LIMIT 5"⟩)) := by
  refine ⟨?_, rfl, rfl⟩
  intro schema rows columns wc out h
  simp only [tableSelect] at h
  cases hck : checkCols schema (selCols schema columns) with
  | some c =>
    rw [hck] at h
    have h2 : (Except.error (PyErr.noSuchColumn c) : Except PyErr (List Row)) = .ok out := h
    cases h2
  | none =>
    rw [hck] at h
    exact selectLoopChar _ _ rows out h

/-- Witness for the amended C7 at a concrete table. -/
theorem selectNoTruncationWitness :
    ([[("id", Value.int 1)]] : List Row) =
      (([[("id", Value.int 1)]] : List Row).filter (rowMatchB none)).map
        (projectRow (selCols [("id", "INTEGER")] none)) :=
  selectNoTruncation.1 [("id", "INTEGER")] [[("id", Value.int 1)]] none none
    [[("id", Value.int 1)]] rfl

/-! ## C1: duplicate primary keys are rejected before any write
(spec-modelled engine) -/

/-- C1 (spec-modelled): when the schema declares a primary key and the
coerced key value of an insert is non-null and already present in the
index, insert fails with `DuplicateKeyError` before any write: the table —
row log and index — is returned unchanged and the row count stays the
same. -/
theorem specInsertDuplicateKey (t : SpecModel.PkTable) (values : List (String × Value))
    (pk : String) (row : Row) (k : Value)
    (hpk : t.primaryKey = some pk)
    (hrow : SpecModel.specRowOf t values = .ok row)
    (hk : (alistGet row pk).getD Value.null = k)
    (hnn : ¬ k = Value.null)
    (hidx : SpecModel.idxHas t.index k = true) :
    SpecModel.specInsert t values = (t, .error (.duplicateKey k)) ∧
    (SpecModel.specInsert t values).1.rows.length = t.rows.length := by
  have h1 : SpecModel.specInsert t values = (t, .error (.duplicateKey k)) := by
    simp only [SpecModel.specInsert, hrow, hpk]
    rw [hk, if_pos ⟨hnn, hidx⟩]
  exact ⟨h1, by rw [h1]⟩

/-- Witness for C1 at a concrete table with a colliding key. -/
theorem specInsertDuplicateKeyWitness :
    SpecModel.specInsert
      ⟨[("id", SpecModel.SpecType.sinteger), ("name", SpecModel.SpecType.sstring)],
       some "id",
       [[("id", Value.int 1), ("name", Value.str "Alice")]],
       [(Value.int 1, [("id", Value.int 1), ("name", Value.str "Alice")])]⟩
      [("id", Value.int 1), ("name", Value.str "Bob")] =
      (⟨[("id", SpecModel.SpecType.sinteger), ("name", SpecModel.SpecType.sstring)],
        some "id",
        [[("id", Value.int 1), ("name", Value.str "Alice")]],
        [(Value.int 1, [("id", Value.int 1), ("name", Value.str "Alice")])]⟩,
       .error (.duplicateKey (Value.int 1))) := by
  have h := specInsertDuplicateKey
    ⟨[("id", SpecModel.SpecType.sinteger), ("name", SpecModel.SpecType.sstring)],
     some "id",
     [[("id", Value.int 1), ("name", Value.str "Alice")]],
     [(Value.int 1, [("id", Value.int 1), ("name", Value.str "Alice")])]⟩
    [("id", Value.int 1), ("name", Value.str "Bob")]
    "id" [("id", Value.int 1), ("name", Value.str "Bob")] (Value.int 1)
    rfl rfl rfl (by decide) rfl
  exact h.1

end MiniDb
